import Mathlib

/-!
Verification development for the task-management backend.

We shallowly embed the cache-consistency layer and the activity-tracking
pipeline of the repository: `TaskCacheService` / `BaseCacheService`
(cache-key derivation, read-through wrapping), `TasksService`
(findAll / findOne / update / remove orchestration), `ActivityTrackerService`
(field-level change detection) and `ActivitiesService` (append-only audit
log, response transformation).

External collaborators (the JS `Date` parser behind `isISODate`, the MD5
digest from `crypto`, the Prisma persistence layer) are modelled as explicit
parameters: every theorem quantifies over them, so the proved properties
hold for the concrete library functions in particular.
-/

/-- JavaScript runtime values that the tracked task fields can hold:
`undefined`, `null`, strings, and `Date` objects (identified by their
epoch-milliseconds, which is what `getTime()` compares). -/
inductive JsValue where
  | undefined
  | null
  | str (s : String)
  | date (ms : Int)
deriving DecidableEq, Repr

/-- The JS date library used by `ActivityTrackerService.isISODate` /
`normalizeValue`: a recognizer for strings whose `new Date(s).toISOString()`
round-trips, together with the parse to epoch milliseconds.  It is an
external collaborator (the ECMAScript `Date` object), so we keep it
abstract and quantify over it. -/
structure DateLib where
  isISODate : String → Bool
  parseMs : String → Int

namespace ActivityTracker

/-- `ActivityTrackerService.normalizeValue`: `undefined` collapses to
`null`; a string recognized as an ISO date becomes a `Date`; everything
else passes through. -/
def normalizeValue (d : DateLib) (v : JsValue) : JsValue :=
  match v with
  | .undefined => .null
  | .str s => if d.isISODate s then .date (d.parseMs s) else .str s
  | v => v

/-- `ActivityTrackerService.hasFieldChanged`: normalize both values; two
`Date`s compare by `getTime()`, anything else by strict inequality
(the values reaching this comparison are primitives or `Date`s, so strict
JS equality is value equality except for the `Date` case handled first). -/
def hasFieldChanged (d : DateLib) (oldValue newValue : JsValue) : Bool :=
  let normalizedOld := normalizeValue d oldValue
  let normalizedNew := normalizeValue d newValue
  match normalizedOld, normalizedNew with
  | .date a, .date b => a != b
  | a, b => a != b

/-- A member of a task's `tags` array: either a raw string id or a tag
object with a (possibly missing/null) `id` property. -/
inductive TagVal where
  | strTag (s : String)
  | objTag (id : Option String)
deriving DecidableEq, Repr

/-- `ActivityTrackerService.extractTagIds`: a non-array (`undefined` tags)
yields `[]`; otherwise map each member to its id (`tag` itself when it is a
string, `tag?.id` otherwise) and `filter(Boolean)`, which drops missing ids
and empty strings. -/
def extractTagIds (tags : Option (List TagVal)) : List String :=
  match tags with
  | none => []
  | some l =>
    (l.map (fun tag =>
      match tag with
      | .strTag s => some s
      | .objTag i => i)).filterMap
      (fun o => match o with
        | some s => if s = "" then none else some s
        | none => none)

/-- JS `Array.prototype.sort()` on a list of distinct-or-not strings:
the unique weakly-sorted rearrangement, obtained by sorting the underlying
multiset lexicographically. -/
def jsSortStrings (l : List String) : List String :=
  Multiset.sort (· ≤ ·) (l : Multiset String)

/-- `ActivityTrackerService.hasTagsChanged`: extract and sort both id
lists; report a change when the lengths differ or some position differs. -/
def hasTagsChanged (oldTags newTags : Option (List TagVal)) : Bool :=
  let oldIds := jsSortStrings (extractTagIds oldTags)
  let newIds := jsSortStrings (extractTagIds newTags)
  if oldIds.length ≠ newIds.length then true
  else (oldIds.zip newIds).any (fun p => p.1 != p.2)

/-- The value stored on one side of a `FieldChange` entry: a normalized
scalar for tracked fields, or a list of tag ids for the `tags` entry. -/
inductive ChangeVal where
  | v (x : JsValue)
  | ids (l : List String)
deriving DecidableEq, Repr

/-- One entry of the change map: the `{ old, new }` pair. -/
structure FieldDiff where
  old : ChangeVal
  new : ChangeVal
deriving DecidableEq, Repr

/-- The change map built by `detectTaskChanges`: a JS object, i.e. an
association list from field name to diff, in insertion order. -/
abbrev ChangeMap := List (String × FieldDiff)

/-- A task object as seen by the tracker: the six tracked scalar fields
plus the `tags` array (`none` models an absent / non-array `tags`). -/
structure TaskObj where
  title : JsValue
  description : JsValue
  status : JsValue
  priority : JsValue
  dueDate : JsValue
  assigneeId : JsValue
  tags : Option (List TagVal)
deriving DecidableEq, Repr

/-- Dynamic property access `task?.[field]` for the tracked fields. -/
def getField (t : TaskObj) (field : String) : JsValue :=
  if field = "title" then t.title
  else if field = "description" then t.description
  else if field = "status" then t.status
  else if field = "priority" then t.priority
  else if field = "dueDate" then t.dueDate
  else if field = "assigneeId" then t.assigneeId
  else .undefined

/-- The fixed tracked-field list of `detectTaskChanges`. -/
def trackedFields : List String :=
  ["title", "description", "status", "priority", "dueDate", "assigneeId"]

/-- `ActivityTrackerService.detectTaskChanges`: for each tracked field,
record a `{ old, new }` entry of normalized values when the field changed;
then append a `tags` entry when the tag id sets differ. -/
def detectTaskChanges (d : DateLib) (oldTask newTask : TaskObj) : ChangeMap :=
  (trackedFields.filterMap (fun field =>
    let oldValue := getField oldTask field
    let newValue := getField newTask field
    if hasFieldChanged d oldValue newValue then
      some (field, { old := .v (normalizeValue d oldValue),
                     new := .v (normalizeValue d newValue) })
    else none))
  ++ (if hasTagsChanged oldTask.tags newTask.tags then
        [("tags", { old := .ids (extractTagIds oldTask.tags),
                    new := .ids (extractTagIds newTask.tags) })]
      else [])

/-- JS property read on the built change object: first (only) binding for
the key, `none` when the key is absent. -/
def jsGet (m : List (String × FieldDiff)) (k : String) : Option FieldDiff :=
  match m with
  | [] => none
  | p :: rest => if p.1 = k then some p.2 else jsGet rest k

end ActivityTracker

namespace TaskCache

/-- A `TaskFilterDto` object at runtime: the own enumerable properties in
insertion order, each a (field name, string value) pair.  Keys are distinct
in a JS object. -/
abbrev FilterObj := List (String × String)

/-- First binding for a key in the property list (JS property lookup). -/
def lookupProp (f : FilterObj) (k : String) : Option String :=
  match f with
  | [] => none
  | p :: rest => if p.1 = k then some p.2 else lookupProp rest k

/-- JSON string quoting; the filter fields are enum names, UUIDs and ISO
dates, which contain no characters needing escapes. -/
def jsonQuote (s : String) : String := "\"" ++ s ++ "\""

/-- `JSON.stringify(filterDto, Object.keys(filterDto).sort())`: with an
array replacer, only the listed properties are serialized and they are
emitted in the replacer array's order, i.e. with the object's keys sorted
lexicographically. -/
def jsonStringifySortedKeys (f : FilterObj) : String :=
  let sortedKeys := ActivityTracker.jsSortStrings (f.map Prod.fst)
  "\x7b" ++
    String.intercalate ","
      (sortedKeys.filterMap (fun k =>
        (lookupProp f k).map (fun v => jsonQuote k ++ ":" ++ jsonQuote v))) ++
    "\x7d"

/-- `TaskCacheService.generateListCacheKey` (also
`BaseCacheService.generateListCacheKey` with prefix `"tasks"`): serialize
the filter with sorted keys, hash, and format the list key.  The
`crypto.createHash("md5")` digest is an external library function, passed
in as `md5hex`. -/
def generateListCacheKey (md5hex : String → String) (filterDto : FilterObj) : String :=
  let filterString := jsonStringifySortedKeys filterDto
  let hash := md5hex filterString
  "tasks:list:" ++ hash

/-- `TaskCacheService.generateItemCacheKey`. -/
def generateItemCacheKey (id : String) : String :=
  "tasks:item:" ++ id

end TaskCache

namespace Tasks

/-- A task row as returned by the persistence layer with its included
relations, restricted to the fields the orchestration code reads. -/
structure TaskEntity where
  id : String
  title : String
  assigneeId : Option String
  projectId : String
deriving DecidableEq, Repr

/-- Errors a `TasksService` call can reject with: the business
`NotFoundException` or an infrastructure failure of the cache backend. -/
inductive JsErr where
  | notFound (msg : String)
  | cacheErr (msg : String)
deriving DecidableEq, Repr

/-- Observable side effects of one `TasksService` request, in invocation
order. -/
inductive Ev where
  | dbListQuery
  | dbItemQuery (id : String)
  | cacheFailureLogged
  | logTaskDeleted (taskId userId : String)
  | persistDelete (id : String)
  | invalidateItemCache (id : String)
  | invalidateListCaches
deriving DecidableEq, Repr

/-- The cache backend's behaviour for the one key a request touches:
either the wrap call itself fails (backend unreachable / store error), or
it holds a cached value, or it is a miss and runs the compute function. -/
structure WrapEnv (α : Type) where
  wrapFails : Bool
  cached : Option α

/-- `TaskCacheService.wrapTaskQuery` = `cacheManager.wrap(key, queryFn,
ttl)`: on backend failure the promise rejects with a cache error (the
compute function is not consulted); on a hit the cached value is returned;
on a miss the compute function runs and its result (or rejection)
propagates. -/
def wrapTaskQuery {α : Type} (env : WrapEnv α)
    (queryFn : Except JsErr α × List Ev) : Except JsErr α × List Ev :=
  if env.wrapFails then (.error (.cacheErr "cache backend unavailable"), [])
  else
    match env.cached with
    | some v => (.ok v, [])
    | none => queryFn

/-- `TaskQueryBuilder.executeTaskListQuery` for a fixed filter: the
persistence layer is an external collaborator, so its result for this
filter is the parameter `dbList`. -/
def executeTaskListQuery (dbList : List TaskEntity) :
    Except JsErr (List TaskEntity) × List Ev :=
  (.ok dbList, [.dbListQuery])

/-- `TaskQueryBuilder.executeTaskQuery id` (`prisma.task.findUnique`): the
persistence result for this id is the parameter `dbItem`. -/
def executeTaskQuery (dbItem : Option TaskEntity) (id : String) :
    Except JsErr (Option TaskEntity) × List Ev :=
  (.ok dbItem, [.dbItemQuery id])

/-- The async compute function `TasksService.findOne` passes to the
wrapper: query the task, throw `NotFoundException` when absent. -/
def findOneQueryFn (dbItem : Option TaskEntity) (id : String) :
    Except JsErr TaskEntity × List Ev :=
  match dbItem with
  | some task => (.ok task, [.dbItemQuery id])
  | none =>
    (.error (.notFound ("Task with ID " ++ id ++ " not found")), [.dbItemQuery id])

/-- `TasksService.findAll`: wrap the list query; on any wrapper rejection
log the cache failure and re-run the persistence list query directly. -/
def findAll (env : WrapEnv (List TaskEntity)) (dbList : List TaskEntity) :
    Except JsErr (List TaskEntity) × List Ev :=
  match wrapTaskQuery env (executeTaskListQuery dbList) with
  | (.ok tasks, evs) => (.ok tasks, evs)
  | (.error _, evs) =>
    let fallback := executeTaskListQuery dbList
    (fallback.1, evs ++ [.cacheFailureLogged] ++ fallback.2)

/-- `TasksService.findOne`: wrap the item query; re-throw a
`NotFoundException` unchanged; on any other rejection log the cache
failure, query persistence directly and throw `NotFoundException` when the
task is absent. -/
def findOne (env : WrapEnv TaskEntity) (dbItem : Option TaskEntity)
    (id : String) : Except JsErr TaskEntity × List Ev :=
  match wrapTaskQuery env (findOneQueryFn dbItem id) with
  | (.ok task, evs) => (.ok task, evs)
  | (.error e, evs) =>
    match e with
    | .notFound m => (.error (.notFound m), evs)
    | .cacheErr _ =>
      match dbItem with
      | some task => (.ok task, evs ++ [.cacheFailureLogged, .dbItemQuery id])
      | none =>
        (.error (.notFound ("Task with ID " ++ id ++ " not found")),
         evs ++ [.cacheFailureLogged, .dbItemQuery id])

/-- `TasksService.remove`: fetch the existing task via `findOne` (NotFound
propagates), log the DELETED activity (best-effort, invoked before the
delete), delete from persistence, invalidate the item and list caches, and
return the success acknowledgement.  The actor id is the source's
`existingTask.assigneeId || existingTask.project.id` fallback. -/
def remove (env : WrapEnv TaskEntity) (dbItem : Option TaskEntity)
    (id : String) : Except JsErr String × List Ev :=
  match findOne env dbItem id with
  | (.error e, evs) => (.error e, evs)
  | (.ok existingTask, evs) =>
    let userId :=
      match existingTask.assigneeId with
      | some a => a
      | none => existingTask.projectId
    (.ok "Task deleted successfully",
     evs ++ [.logTaskDeleted id userId, .persistDelete id,
             .invalidateItemCache id, .invalidateListCaches])

/-- `UpdateTaskDto`: every scalar field can be absent (`undefined`),
explicitly `null`, or set; `tagIds` is either absent/null (`none`, falsy)
or an array of tag ids. -/
structure UpdateTaskDto where
  title : JsValue
  description : JsValue
  status : JsValue
  priority : JsValue
  dueDate : JsValue
  assigneeId : JsValue
  tagIds : Option (List String)
deriving DecidableEq, Repr

/-- The JS nullish-coalescing operator `a ?? b`. -/
def nullishCoalesce (a b : JsValue) : JsValue :=
  match a with
  | .undefined => b
  | .null => b
  | v => v

/-- The `newTaskForComparison` object `TasksService.update` builds before
diffing: the five scalar fields are merged with `??` (so an explicit
`null` in the DTO falls back to the existing value), `assigneeId` is merged
with an explicit `!== undefined` check (so an explicit `null` survives),
and `tags` is replaced only when `tagIds` is a (truthy) array. -/
def newTaskForComparison (dto : UpdateTaskDto)
    (existingTask : ActivityTracker.TaskObj) : ActivityTracker.TaskObj :=
  { title := nullishCoalesce dto.title existingTask.title,
    description := nullishCoalesce dto.description existingTask.description,
    status := nullishCoalesce dto.status existingTask.status,
    priority := nullishCoalesce dto.priority existingTask.priority,
    dueDate := nullishCoalesce dto.dueDate existingTask.dueDate,
    assigneeId :=
      if dto.assigneeId ≠ .undefined then dto.assigneeId else existingTask.assigneeId,
    tags :=
      match dto.tagIds with
      | some ids => some (ids.map (fun tagId => ActivityTracker.TagVal.objTag (some tagId)))
      | none => existingTask.tags }

/-- Dynamic property access on an `UpdateTaskDto` for the five scalar
fields merged with `??`. -/
def dtoScalarField (dto : UpdateTaskDto) (f : String) : JsValue :=
  if f = "title" then dto.title
  else if f = "description" then dto.description
  else if f = "status" then dto.status
  else if f = "priority" then dto.priority
  else if f = "dueDate" then dto.dueDate
  else .undefined

end Tasks

/-- Event `e₁` is invoked strictly before event `e₂` in a trace. -/
def precedes (e₁ e₂ : Tasks.Ev) (tr : List Tasks.Ev) : Prop :=
  ∃ i j : Nat, i < j ∧ tr[i]? = some e₁ ∧ tr[j]? = some e₂

namespace Activities

/-- The `ActivityAction` enum of the schema. -/
inductive ActivityAction where
  | CREATED
  | UPDATED
  | DELETED
deriving DecidableEq, Repr

/-- `CreateActivityDto`: the data `createActivity` persists.  The stored
`changes` column is `JSON.stringify` of the change map when present; the
round-trip through the external JSON library is the identity on the data,
so the column is modelled by the map itself. -/
structure CreateActivityDto where
  taskId : Option String
  userId : String
  action : ActivityAction
  changes : Option ActivityTracker.ChangeMap
deriving DecidableEq, Repr

/-- One persisted `TaskActivity` row, restricted to the caller-provided
columns (`id` and `createdAt` are generated by the database). -/
structure ActivityRow where
  taskId : Option String
  userId : String
  action : ActivityAction
  changes : Option ActivityTracker.ChangeMap
deriving DecidableEq, Repr

/-- The state of the activity table, in insertion order. -/
abbrev ActivityLog := List ActivityRow

/-- `ActivitiesService.createActivity`: one `prisma.taskActivity.create`,
i.e. one appended row. -/
def createActivity (dto : CreateActivityDto) (log : ActivityLog) : ActivityLog :=
  log ++ [⟨dto.taskId, dto.userId, dto.action, dto.changes⟩]

/-- `ActivitiesService.logTaskCreated`. -/
def logTaskCreated (taskId userId : String) (log : ActivityLog) : ActivityLog :=
  createActivity ⟨some taskId, userId, .CREATED, none⟩ log

/-- `ActivitiesService.logTaskUpdated`: returns without calling
`createActivity` when `changes` is falsy or has no keys. -/
def logTaskUpdated (taskId userId : String)
    (changes : Option ActivityTracker.ChangeMap) (log : ActivityLog) : ActivityLog :=
  match changes with
  | none => log
  | some c =>
    if c.isEmpty then log
    else createActivity ⟨some taskId, userId, .UPDATED, some c⟩ log

/-- `ActivitiesService.logTaskDeleted`. -/
def logTaskDeleted (taskId userId : String) (log : ActivityLog) : ActivityLog :=
  createActivity ⟨some taskId, userId, .DELETED, none⟩ log

/-- `ActivityFilterDto`: the query filters accepted by `findAll`. -/
structure ActivityFilterDto where
  userId : Option String := none
  taskId : Option String := none
  action : Option ActivityAction := none
  dateFrom : Option String := none
  dateTo : Option String := none
  page : Option Nat := none
  perPage : Option Nat := none
deriving DecidableEq, Repr

/-- The public surface of `ActivitiesService`, one constructor per exposed
method. -/
inductive ActOp where
  | createActivityOp (dto : CreateActivityDto)
  | logTaskCreatedOp (taskId userId : String)
  | logTaskUpdatedOp (taskId userId : String) (changes : Option ActivityTracker.ChangeMap)
  | logTaskDeletedOp (taskId userId : String)
  | findAllOp (filter : ActivityFilterDto)
  | findByTaskIdOp (taskId : String) (filter : ActivityFilterDto)
  | findByUserIdOp (userId : String) (filter : ActivityFilterDto)

/-- Effect of each exposed operation on the activity table.  The three
query methods issue only `findMany` / `count` reads, computing their
response from the rows without touching them. -/
def applyOp (op : ActOp) (log : ActivityLog) : ActivityLog :=
  match op with
  | .createActivityOp dto => createActivity dto log
  | .logTaskCreatedOp taskId userId => logTaskCreated taskId userId log
  | .logTaskUpdatedOp taskId userId changes => logTaskUpdated taskId userId changes log
  | .logTaskDeletedOp taskId userId => logTaskDeleted taskId userId log
  | .findAllOp _ => log
  | .findByTaskIdOp _ _ => log
  | .findByUserIdOp _ _ => log

/-- Run a sequence of `ActivitiesService` calls. -/
def applyOps (ops : List ActOp) (log : ActivityLog) : ActivityLog :=
  ops.foldl (fun st op => applyOp op st) log

/-- A `Task` row as selected by the activity query's include
(`select: { id, title }`). -/
structure TaskRef where
  id : String
  title : String
deriving DecidableEq, Repr

/-- A stored `TaskActivity` row at the database level, with its generated
`id` and `createdAt` and the name of its (FK-guaranteed) user carried
inline; `changes` is the stored JSON string. -/
structure DbActivity where
  id : String
  taskId : Option String
  userId : String
  userName : String
  action : ActivityAction
  changes : Option String
  createdAt : Int
deriving DecidableEq, Repr

/-- The relational state the activity query runs against. -/
structure ActivityDb where
  tasks : List TaskRef
  activities : List DbActivity
deriving Repr

/-- Deleting a `Task` row under the schema's
`TaskActivity_taskId_fkey ... ON DELETE SET NULL`: the task row goes away
and every activity referencing it gets a null `taskId`. -/
def deleteTaskRow (db : ActivityDb) (tid : String) : ActivityDb :=
  { tasks := db.tasks.filter (fun t => t.id ≠ tid),
    activities := db.activities.map (fun a =>
      if a.taskId = some tid then { a with taskId := none } else a) }

/-- A row as `prisma.taskActivity.findMany({ include: { task, user } })`
returns it: the stored columns plus the joined task (null iff `taskId` is
null, since the FK guarantees a referenced task exists). -/
structure JoinedActivity where
  id : String
  taskId : Option String
  task : Option TaskRef
  userId : String
  userName : String
  action : ActivityAction
  changes : Option String
  createdAt : Int
deriving DecidableEq, Repr

/-- Perform the `include: { task: ... }` join for one row. -/
def joinTask (db : ActivityDb) (a : DbActivity) : JoinedActivity :=
  { id := a.id, taskId := a.taskId,
    task := a.taskId.bind (fun tid => db.tasks.find? (fun t => t.id == tid)),
    userId := a.userId, userName := a.userName, action := a.action,
    changes := a.changes, createdAt := a.createdAt }

/-- The `ActivityResponseDto` shape. -/
structure ActivityResponseDto where
  id : String
  taskId : Option String
  taskTitle : String
  userId : String
  userName : String
  action : ActivityAction
  changes : Option String
  createdAt : Int
deriving DecidableEq, Repr

/-- `ActivitiesService.transformToResponseDto`: `activity.task?.title ||
"[Deleted Task]"` substitutes the placeholder when the joined task is null
(or its title is the empty, falsy string); `changes` is `JSON.parse` of the
stored string, modelled as the stored data itself. -/
def transformToResponseDto (activity : JoinedActivity) : ActivityResponseDto :=
  { id := activity.id,
    taskId := activity.taskId,
    taskTitle :=
      match activity.task with
      | some t => if t.title = "" then "[Deleted Task]" else t.title
      | none => "[Deleted Task]",
    userId := activity.userId,
    userName := activity.userName,
    action := activity.action,
    changes := activity.changes,
    createdAt := activity.createdAt }

/-- The per-record content of `ActivitiesService.findAll`'s response: each
stored row, joined and transformed.  (The `where` filter, ordering and
pagination select among these records but do not alter any record's
content.) -/
def queryActivities (db : ActivityDb) : List ActivityResponseDto :=
  db.activities.map (fun a => transformToResponseDto (joinTask db a))

end Activities

section HelperLemmas

open ActivityTracker

/-- Sorting is insensitive to the input's order. -/
theorem jsSortStrings_perm {l₁ l₂ : List String} (h : l₁.Perm l₂) :
    jsSortStrings l₁ = jsSortStrings l₂ := by
  unfold jsSortStrings
  rw [Multiset.coe_eq_coe.mpr h]

/-- A value never differs from itself under `hasFieldChanged`. -/
theorem hasFieldChanged_self (d : DateLib) (v : JsValue) :
    hasFieldChanged d v v = false := by
  unfold hasFieldChanged
  cases h : normalizeValue d v <;> simp

/-- Normalization maps nullish values to `null` and nothing else to
`null`. -/
theorem normalizeValue_eq_null_iff (d : DateLib) (v : JsValue) :
    normalizeValue d v = .null ↔ (v = .null ∨ v = .undefined) := by
  cases v <;> simp [normalizeValue]
  case str s => split <;> simp

/-- Unfolding `jsGet` one binding at a time. -/
theorem jsGet_cons (p : String × FieldDiff) (rest : List (String × FieldDiff))
    (k : String) :
    jsGet (p :: rest) k = if p.1 = k then some p.2 else jsGet rest k := rfl

/-- `jsGet` misses when no binding carries the key. -/
theorem jsGet_eq_none (m : List (String × FieldDiff)) (k : String)
    (h : ∀ p ∈ m, p.1 ≠ k) : jsGet m k = none := by
  induction m with
  | nil => rfl
  | cons p rest ih =>
    rw [jsGet_cons, if_neg (h p (by simp))]
    exact ih (fun q hq => h q (by simp [hq]))

/-- `jsGet` skips a block of bindings that do not carry the key. -/
theorem jsGet_append (m₁ m₂ : List (String × FieldDiff)) (k : String)
    (h : ∀ p ∈ m₁, p.1 ≠ k) : jsGet (m₁ ++ m₂) k = jsGet m₂ k := by
  induction m₁ with
  | nil => rfl
  | cons p rest ih =>
    show jsGet (p :: (rest ++ m₂)) k = _
    rw [jsGet_cons, if_neg (h p (by simp))]
    exact ih (fun q hq => h q (by simp [hq]))

/-- Reading the object built from a keyed `filterMap`: the binding for a
listed key `f` is exactly what the generator yields at `f`. -/
theorem jsGet_filterMap_keys (keys : List String)
    (g : String → Option (String × FieldDiff))
    (tail : List (String × FieldDiff)) (f : String)
    (hg : ∀ k p, g k = some p → p.1 = k)
    (hf : f ∈ keys) (hnd : keys.Nodup) (htail : ∀ p ∈ tail, p.1 ≠ f) :
    jsGet (keys.filterMap g ++ tail) f = Option.map Prod.snd (g f) := by
  induction keys with
  | nil => cases hf
  | cons k ks ih =>
    have hndk : k ∉ ks := (List.nodup_cons.mp hnd).1
    have hnd' : ks.Nodup := (List.nodup_cons.mp hnd).2
    by_cases hfk : f = k
    · subst hfk
      have hnotin : ∀ p ∈ ks.filterMap g ++ tail, p.1 ≠ f := by
        intro p hp
        rcases List.mem_append.mp hp with hp | hp
        · obtain ⟨k', hk', hgk'⟩ := List.mem_filterMap.mp hp
          rw [hg k' p hgk']
          intro hcontra
          exact hndk (hcontra ▸ hk')
        · exact htail p hp
      cases hgk : g f with
      | none =>
        simp only [List.filterMap_cons, hgk]
        rw [jsGet_eq_none _ _ hnotin]
        rfl
      | some p =>
        simp only [List.filterMap_cons, hgk]
        show jsGet (p :: (ks.filterMap g ++ tail)) f = _
        rw [jsGet_cons, if_pos (hg f p hgk)]
        rfl
    · have hf' : f ∈ ks := by
        rcases List.mem_cons.mp hf with h | h
        · exact absurd h hfk
        · exact h
      cases hgk : g k with
      | none =>
        simp only [List.filterMap_cons, hgk]
        exact ih hf' hnd'
      | some p =>
        simp only [List.filterMap_cons, hgk]
        show jsGet (p :: (ks.filterMap g ++ tail)) f = _
        rw [jsGet_cons, if_neg (by rw [hg k p hgk]; exact fun hc => hfk hc.symm)]
        exact ih hf' hnd'

/-- `lookupProp` only depends on the key/value pairs, not their order,
when keys are distinct. -/
theorem lookupProp_perm {f₁ f₂ : TaskCache.FilterObj} (h : f₁.Perm f₂)
    (hnd : (f₁.map Prod.fst).Nodup) (k : String) :
    TaskCache.lookupProp f₁ k = TaskCache.lookupProp f₂ k := by
  induction h with
  | nil => rfl
  | cons x h ih =>
    unfold TaskCache.lookupProp
    by_cases hx : x.1 = k
    · simp [hx]
    · simp only [if_neg hx]
      exact ih ((List.nodup_cons.mp (by simpa using hnd)).2)
  | swap x y l =>
    have hxy : y.1 ≠ x.1 := by
      simp only [List.map_cons, List.nodup_cons, List.mem_cons] at hnd
      exact fun hc => hnd.1 (Or.inl hc)
    unfold TaskCache.lookupProp
    by_cases hy : y.1 = k
    · rw [if_pos hy]
      unfold TaskCache.lookupProp
      rw [if_neg (fun hc => hxy (hy.trans hc.symm)), if_pos hy]
    · by_cases hx : x.1 = k
      · rw [if_neg hy]
        unfold TaskCache.lookupProp
        rw [if_pos hx, if_pos hx]
      · rw [if_neg hy]
        unfold TaskCache.lookupProp
        rw [if_neg hx, if_neg hx, if_neg hy]
  | trans h₁ h₂ ih₁ ih₂ =>
    rw [ih₁ hnd, ih₂ (((h₁.map Prod.fst).nodup_iff).mp hnd)]

/-- Zipping a list with itself shows no position differing. -/
theorem zip_self_no_diff (l : List String) :
    ((l.zip l).any fun p => p.1 != p.2) = false := by
  induction l with
  | nil => rfl
  | cons x xs ih => simp [List.zip_cons_cons, ih]

/-- Positionwise-equal lists of equal length are equal. -/
theorem eq_of_zip_eq (l₁ l₂ : List String) (hlen : l₁.length = l₂.length)
    (h : ((l₁.zip l₂).any fun p => p.1 != p.2) = false) : l₁ = l₂ := by
  induction l₁ generalizing l₂ with
  | nil => cases l₂ with
    | nil => rfl
    | cons y ys => cases hlen
  | cons x xs ih =>
    cases l₂ with
    | nil => cases hlen
    | cons y ys =>
      simp only [List.zip_cons_cons, List.any_cons, Bool.or_eq_false_iff,
        bne_eq_false_iff_eq] at h
      rw [h.1, ih ys (by simpa using hlen) h.2]

/-- Two string lists with the same sorted arrangement are permutations of
each other. -/
theorem perm_of_jsSort_eq {l₁ l₂ : List String}
    (h : jsSortStrings l₁ = jsSortStrings l₂) : l₁.Perm l₂ := by
  have h₁ : (↑(jsSortStrings l₁) : Multiset String) = ↑l₁ :=
    Multiset.sort_eq (· ≤ ·) (l₁ : Multiset String)
  have h₂ : (↑(jsSortStrings l₂) : Multiset String) = ↑l₂ :=
    Multiset.sort_eq (· ≤ ·) (l₂ : Multiset String)
  exact Multiset.coe_eq_coe.mp (h₁ ▸ h₂ ▸ (by rw [h]))

/-- The keys of the tracked-field loop are distinct. -/
theorem trackedFields_nodup : trackedFields.Nodup := by decide

/-- No tracked field is named `tags`. -/
theorem trackedFields_ne_tags : ∀ x ∈ trackedFields, x ≠ "tags" := by decide

/-- Reading a tracked field off the change map yields exactly the
normalized `{ old, new }` pair when the field changed, and nothing
otherwise. -/
theorem jsGet_detect_tracked (d : DateLib) (oldT newT : TaskObj) (f : String)
    (hf : f ∈ trackedFields) :
    jsGet (detectTaskChanges d oldT newT) f =
      if hasFieldChanged d (getField oldT f) (getField newT f) then
        some { old := .v (normalizeValue d (getField oldT f)),
               new := .v (normalizeValue d (getField newT f)) }
      else none := by
  have h := jsGet_filterMap_keys trackedFields
    (fun field =>
      if hasFieldChanged d (getField oldT field) (getField newT field) then
        some (field, { old := .v (normalizeValue d (getField oldT field)),
                       new := .v (normalizeValue d (getField newT field)) })
      else none)
    (if hasTagsChanged oldT.tags newT.tags then
        [("tags", { old := .ids (extractTagIds oldT.tags),
                    new := .ids (extractTagIds newT.tags) })]
      else []) f
    (by
      intro k p hp
      dsimp only at hp
      split at hp
      · cases hp
        rfl
      · cases hp)
    hf trackedFields_nodup
    (by
      intro p hp
      split at hp
      · simp only [List.mem_singleton] at hp
        rw [hp]
        exact fun hc => trackedFields_ne_tags f hf hc.symm
      · cases hp)
  refine Eq.trans ?_ (h.trans ?_)
  · rfl
  · by_cases hc : hasFieldChanged d (getField oldT f) (getField newT f) <;>
      simp [hc]

/-- Reading the `tags` key off the change map yields exactly the id-list
pair when the tag sets changed, and nothing otherwise. -/
theorem jsGet_detect_tags (d : DateLib) (oldT newT : TaskObj) :
    jsGet (detectTaskChanges d oldT newT) "tags" =
      if hasTagsChanged oldT.tags newT.tags then
        some { old := .ids (extractTagIds oldT.tags),
               new := .ids (extractTagIds newT.tags) }
      else none := by
  unfold detectTaskChanges
  rw [jsGet_append _ _ _ ?hpre]
  case hpre =>
    intro p hp
    obtain ⟨field, hfield, hgen⟩ := List.mem_filterMap.mp hp
    have hp1 : p.1 = field := by
      dsimp only at hgen
      split at hgen
      · cases hgen
        rfl
      · cases hgen
    rw [hp1]
    exact trackedFields_ne_tags field hfield
  by_cases hc : hasTagsChanged oldT.tags newT.tags
  · rw [if_pos hc, if_pos hc, jsGet_cons, if_pos rfl]
  · rw [if_neg hc, if_neg hc]
    rfl

end HelperLemmas

/-- Indexing past a prefix lands in the suffix. -/
theorem getElem?_append_offset {α : Type} (l₁ l₂ : List α) (k : Nat) :
    (l₁ ++ l₂)[l₁.length + k]? = l₂[k]? := by
  rw [List.getElem?_append_right (by omega)]
  congr 1
  omega

/-- Claim C1: `TasksService.findOne` surfaces NotFound as a distinct
business error: the compute path throws NotFound on an absent task; a
NotFound rejection of the cache wrapper is re-thrown unchanged, never
swallowed by the cache-failure fallback; and any non-NotFound wrapper
failure triggers a direct persistence query whose result (or NotFound) is
returned. -/
theorem findOne_notFound_surfaced (env : Tasks.WrapEnv Tasks.TaskEntity)
    (dbItem : Option Tasks.TaskEntity) (id : String) :
    (env.wrapFails = false → env.cached = none → dbItem = none →
      (Tasks.findOne env dbItem id).1 =
        .error (.notFound ("Task with ID " ++ id ++ " not found"))) ∧
    (∀ m evs,
      Tasks.wrapTaskQuery env (Tasks.findOneQueryFn dbItem id) =
        (.error (.notFound m), evs) →
      (Tasks.findOne env dbItem id).1 = .error (.notFound m)) ∧
    (env.wrapFails = true →
      ((dbItem = none →
          (Tasks.findOne env dbItem id).1 =
            .error (.notFound ("Task with ID " ++ id ++ " not found"))) ∧
       (∀ t, dbItem = some t → (Tasks.findOne env dbItem id).1 = .ok t) ∧
       Tasks.Ev.dbItemQuery id ∈ (Tasks.findOne env dbItem id).2)) := by
  refine ⟨?_, ?_, ?_⟩
  · intro h1 h2 h3
    simp [Tasks.findOne, Tasks.wrapTaskQuery, Tasks.findOneQueryFn, h1, h2, h3]
  · intro m evs h
    unfold Tasks.findOne
    rw [h]
  · intro hw
    refine ⟨?_, ?_, ?_⟩
    · intro h3
      simp [Tasks.findOne, Tasks.wrapTaskQuery, hw, h3]
    · intro t h3
      simp [Tasks.findOne, Tasks.wrapTaskQuery, hw, h3]
    · cases dbItem <;>
        simp [Tasks.findOne, Tasks.wrapTaskQuery, hw]

/-- Witness for C1: with the wrapper failing and an empty persistence
result, `findOne` rejects with the NotFound business error. -/
theorem findOne_notFound_surfaced_witness :
    (Tasks.findOne ⟨true, none⟩ none "t1").1 =
      .error (.notFound ("Task with ID " ++ "t1" ++ " not found")) :=
  ((findOne_notFound_surfaced ⟨true, none⟩ none "t1").2.2 rfl).1 rfl

/-- Claim C2: when the cache wrapper call inside `TasksService.findAll`
rejects, `findAll` logs the cache failure and returns exactly the result
of the direct persistence list query; no error is surfaced. -/
theorem findAll_cache_fallback (env : Tasks.WrapEnv (List Tasks.TaskEntity))
    (dbList : List Tasks.TaskEntity) (h : env.wrapFails = true) :
    (Tasks.findAll env dbList).1 = (Tasks.executeTaskListQuery dbList).1 ∧
    (Tasks.findAll env dbList).1 = .ok dbList ∧
    Tasks.Ev.cacheFailureLogged ∈ (Tasks.findAll env dbList).2 ∧
    ∀ e, (Tasks.findAll env dbList).1 ≠ .error e := by
  refine ⟨?_, ?_, ?_, ?_⟩ <;>
    simp [Tasks.findAll, Tasks.wrapTaskQuery, Tasks.executeTaskListQuery, h]

/-- Witness for C2: a concrete failing cache with one task in
persistence. -/
theorem findAll_cache_fallback_witness :
    (Tasks.findAll ⟨true, none⟩ [⟨"t1", "T", none, "p1"⟩]).1 =
      .ok [⟨"t1", "T", none, "p1"⟩] :=
  (findAll_cache_fallback ⟨true, none⟩ [⟨"t1", "T", none, "p1"⟩] rfl).2.1

/-- Claim C7: on every delete of an existing task, `TasksService.remove`
invokes the DELETED activity write before the persistence delete, then
invalidates the item and list caches after the delete, and returns the
success acknowledgement. -/
theorem remove_logs_before_delete (env : Tasks.WrapEnv Tasks.TaskEntity)
    (dbItem : Option Tasks.TaskEntity) (id : String) (t : Tasks.TaskEntity)
    (h : (Tasks.findOne env dbItem id).1 = .ok t) :
    (Tasks.remove env dbItem id).1 = .ok "Task deleted successfully" ∧
    ∃ userId,
      precedes (.logTaskDeleted id userId) (.persistDelete id)
        (Tasks.remove env dbItem id).2 ∧
      precedes (.persistDelete id) (.invalidateItemCache id)
        (Tasks.remove env dbItem id).2 ∧
      precedes (.persistDelete id) .invalidateListCaches
        (Tasks.remove env dbItem id).2 := by
  rcases hfo : Tasks.findOne env dbItem id with ⟨res, evs⟩
  rw [hfo] at h
  simp only at h
  subst h
  unfold Tasks.remove
  rw [hfo]
  dsimp only
  refine ⟨rfl, ?_⟩
  refine ⟨match t.assigneeId with | some a => a | none => t.projectId, ?_, ?_, ?_⟩
  · exact ⟨evs.length, evs.length + 1, by omega,
      by rw [show evs.length = evs.length + 0 from rfl, getElem?_append_offset]; rfl,
      by rw [getElem?_append_offset]; rfl⟩
  · exact ⟨evs.length + 1, evs.length + 2, by omega,
      by rw [getElem?_append_offset]; rfl,
      by rw [getElem?_append_offset]; rfl⟩
  · exact ⟨evs.length + 1, evs.length + 3, by omega,
      by rw [getElem?_append_offset]; rfl,
      by rw [getElem?_append_offset]; rfl⟩

/-- Witness for C7: deleting a concrete existing task. -/
theorem remove_logs_before_delete_witness :
    (Tasks.remove ⟨false, none⟩ (some ⟨"t1", "T", some "u1", "p1"⟩) "t1").1 =
      .ok "Task deleted successfully" ∧
    ∃ userId,
      precedes (.logTaskDeleted "t1" userId) (.persistDelete "t1")
        (Tasks.remove ⟨false, none⟩ (some ⟨"t1", "T", some "u1", "p1"⟩) "t1").2 ∧
      precedes (.persistDelete "t1") (.invalidateItemCache "t1")
        (Tasks.remove ⟨false, none⟩ (some ⟨"t1", "T", some "u1", "p1"⟩) "t1").2 ∧
      precedes (.persistDelete "t1") .invalidateListCaches
        (Tasks.remove ⟨false, none⟩ (some ⟨"t1", "T", some "u1", "p1"⟩) "t1").2 :=
  remove_logs_before_delete ⟨false, none⟩ (some ⟨"t1", "T", some "u1", "p1"⟩)
    "t1" ⟨"t1", "T", some "u1", "p1"⟩ rfl


/-- Claim C3: `generateListCacheKey` is insensitive to the filter
object's property insertion order: any reordering of the same key/value
pairs produces the same cache key, for every digest function (in
particular MD5). -/
theorem generateListCacheKey_order_insensitive (md5hex : String → String)
    (f₁ f₂ : TaskCache.FilterObj) (hperm : f₁.Perm f₂)
    (hnd : (f₁.map Prod.fst).Nodup) :
    TaskCache.generateListCacheKey md5hex f₁ =
      TaskCache.generateListCacheKey md5hex f₂ := by
  have hkeys : ActivityTracker.jsSortStrings (f₁.map Prod.fst) =
      ActivityTracker.jsSortStrings (f₂.map Prod.fst) :=
    jsSortStrings_perm (hperm.map Prod.fst)
  have hfun :
      (fun k => (TaskCache.lookupProp f₁ k).map
        (fun v => TaskCache.jsonQuote k ++ ":" ++ TaskCache.jsonQuote v)) =
      (fun k => (TaskCache.lookupProp f₂ k).map
        (fun v => TaskCache.jsonQuote k ++ ":" ++ TaskCache.jsonQuote v)) :=
    funext (fun k => by rw [lookupProp_perm hperm hnd k])
  unfold TaskCache.generateListCacheKey TaskCache.jsonStringifySortedKeys
  rw [hkeys, hfun]

/-- Witness for C3: the keys for `{status, priority}` written in either
order coincide. -/
theorem generateListCacheKey_order_insensitive_witness :
    TaskCache.generateListCacheKey (fun s => s)
        [("status", "TODO"), ("priority", "HIGH")] =
      TaskCache.generateListCacheKey (fun s => s)
        [("priority", "HIGH"), ("status", "TODO")] :=
  generateListCacheKey_order_insensitive (fun s => s)
    [("status", "TODO"), ("priority", "HIGH")]
    [("priority", "HIGH"), ("status", "TODO")]
    (List.Perm.swap _ _ _) (by decide)

/-- Claim C4: for each tracked field, `detectTaskChanges` reports no
change between `undefined` and `null` (both normalize to null), and
reports `{old: null, new: normalized v}` when a null-ish value becomes a
non-null value `v`. -/
theorem detect_null_normalization (d : DateLib)
    (oldT newT : ActivityTracker.TaskObj) (f : String)
    (hf : f ∈ ActivityTracker.trackedFields) :
    (ActivityTracker.getField oldT f = .undefined →
      ActivityTracker.getField newT f = .null →
      ActivityTracker.jsGet (ActivityTracker.detectTaskChanges d oldT newT) f = none) ∧
    (ActivityTracker.getField oldT f = .null →
      ActivityTracker.getField newT f = .undefined →
      ActivityTracker.jsGet (ActivityTracker.detectTaskChanges d oldT newT) f = none) ∧
    ((ActivityTracker.getField oldT f = .null ∨
        ActivityTracker.getField oldT f = .undefined) →
      ActivityTracker.getField newT f ≠ .null →
      ActivityTracker.getField newT f ≠ .undefined →
      ActivityTracker.jsGet (ActivityTracker.detectTaskChanges d oldT newT) f =
        some { old := .v .null,
               new := .v (ActivityTracker.normalizeValue d
                 (ActivityTracker.getField newT f)) }) := by
  rw [jsGet_detect_tracked d oldT newT f hf]
  refine ⟨?_, ?_, ?_⟩
  · intro h1 h2
    rw [h1, h2]
    simp [ActivityTracker.hasFieldChanged, ActivityTracker.normalizeValue]
  · intro h1 h2
    rw [h1, h2]
    simp [ActivityTracker.hasFieldChanged, ActivityTracker.normalizeValue]
  · intro hold hnew1 hnew2
    have hno : ActivityTracker.normalizeValue d (ActivityTracker.getField oldT f) = .null := by
      rcases hold with h | h <;> rw [h] <;> rfl
    have hnn : ActivityTracker.normalizeValue d (ActivityTracker.getField newT f) ≠ .null := by
      intro hcontra
      rcases (normalizeValue_eq_null_iff d _).mp hcontra with h | h
      · exact hnew1 h
      · exact hnew2 h
    have hch : ActivityTracker.hasFieldChanged d
        (ActivityTracker.getField oldT f) (ActivityTracker.getField newT f) = true := by
      simp only [ActivityTracker.hasFieldChanged, hno]
      cases h2 : ActivityTracker.normalizeValue d (ActivityTracker.getField newT f) <;>
        simp_all
    rw [hch, if_pos rfl, hno]

/-- Witness for C4: a concrete null-to-value transition on `title`. -/
theorem detect_null_normalization_witness :
    ActivityTracker.jsGet
        (ActivityTracker.detectTaskChanges ⟨fun _ => false, fun _ => 0⟩
          { title := .null, description := .null, status := .null,
            priority := .null, dueDate := .null, assigneeId := .null,
            tags := none }
          { title := .str "x", description := .null, status := .null,
            priority := .null, dueDate := .null, assigneeId := .null,
            tags := none }) "title" =
      some { old := .v .null,
             new := .v (ActivityTracker.normalizeValue
               ⟨fun _ => false, fun _ => 0⟩ (ActivityTracker.getField
                 { title := .str "x", description := .null, status := .null,
                   priority := .null, dueDate := .null, assigneeId := .null,
                   tags := none } "title")) } :=
  (detect_null_normalization ⟨fun _ => false, fun _ => 0⟩
      { title := .null, description := .null, status := .null,
        priority := .null, dueDate := .null, assigneeId := .null,
        tags := none }
      { title := .str "x", description := .null, status := .null,
        priority := .null, dueDate := .null, assigneeId := .null,
        tags := none } "title" (by decide)).2.2
    (Or.inl rfl) (by decide) (by decide)

/-- Claim C5: tag comparison is order-independent and set-based: two tag
collections carrying the same member ids in any order yield no `tags`
change, while collections whose member-id sets differ yield a `tags`
change entry. -/
theorem detect_tags_set_based (d : DateLib)
    (oldT newT : ActivityTracker.TaskObj) :
    ((ActivityTracker.extractTagIds oldT.tags).Perm
        (ActivityTracker.extractTagIds newT.tags) →
      ActivityTracker.jsGet (ActivityTracker.detectTaskChanges d oldT newT) "tags" = none) ∧
    ((ActivityTracker.extractTagIds oldT.tags).toFinset ≠
        (ActivityTracker.extractTagIds newT.tags).toFinset →
      ActivityTracker.jsGet (ActivityTracker.detectTaskChanges d oldT newT) "tags" =
        some { old := .ids (ActivityTracker.extractTagIds oldT.tags),
               new := .ids (ActivityTracker.extractTagIds newT.tags) }) := by
  rw [jsGet_detect_tags d oldT newT]
  constructor
  · intro hperm
    have hfalse : ActivityTracker.hasTagsChanged oldT.tags newT.tags = false := by
      unfold ActivityTracker.hasTagsChanged
      rw [jsSortStrings_perm hperm]
      simp [zip_self_no_diff]
    rw [hfalse]
    rfl
  · intro hne
    have htrue : ActivityTracker.hasTagsChanged oldT.tags newT.tags = true := by
      rcases hb : ActivityTracker.hasTagsChanged oldT.tags newT.tags with _ | _
      · exfalso
        unfold ActivityTracker.hasTagsChanged at hb
        dsimp only at hb
        split at hb
        · exact absurd hb (by simp)
        · rename_i hlen
          have hlen' : (ActivityTracker.jsSortStrings
              (ActivityTracker.extractTagIds oldT.tags)).length =
              (ActivityTracker.jsSortStrings
                (ActivityTracker.extractTagIds newT.tags)).length := by
            by_contra hc
            exact hlen hc
          have hs := eq_of_zip_eq _ _ hlen' hb
          refine hne (Finset.ext (fun x => ?_))
          simp only [List.mem_toFinset]
          exact (perm_of_jsSort_eq hs).mem_iff
      · rfl
    rw [htrue]
    rfl

/-- Witness for C5: reordered tag ids are not a change. -/
theorem detect_tags_set_based_witness :
    ActivityTracker.jsGet
        (ActivityTracker.detectTaskChanges ⟨fun _ => false, fun _ => 0⟩
          { title := .null, description := .null, status := .null,
            priority := .null, dueDate := .null, assigneeId := .null,
            tags := some [.strTag "a", .strTag "b"] }
          { title := .null, description := .null, status := .null,
            priority := .null, dueDate := .null, assigneeId := .null,
            tags := some [.strTag "b", .strTag "a"] }) "tags" = none :=
  (detect_tags_set_based ⟨fun _ => false, fun _ => 0⟩
      { title := .null, description := .null, status := .null,
        priority := .null, dueDate := .null, assigneeId := .null,
        tags := some [.strTag "a", .strTag "b"] }
      { title := .null, description := .null, status := .null,
        priority := .null, dueDate := .null, assigneeId := .null,
        tags := some [.strTag "b", .strTag "a"] }).1 (by decide)

/-- Claim C6: `ActivitiesService.logTaskUpdated` persists no
ActivityRecord when the change map is missing or empty, and creates
exactly one UPDATED record when it has at least one field entry. -/
theorem logTaskUpdated_noop_on_empty (taskId userId : String)
    (log : Activities.ActivityLog) :
    Activities.logTaskUpdated taskId userId none log = log ∧
    Activities.logTaskUpdated taskId userId (some []) log = log ∧
    ∀ c : ActivityTracker.ChangeMap, c ≠ [] →
      Activities.logTaskUpdated taskId userId (some c) log =
        log ++ [{ taskId := some taskId, userId := userId,
                  action := .UPDATED, changes := some c }] := by
  refine ⟨rfl, rfl, ?_⟩
  intro c hc
  cases c with
  | nil => exact absurd rfl hc
  | cons x xs => rfl

/-- Witness for C6: a singleton change map yields exactly one appended
UPDATED row. -/
theorem logTaskUpdated_noop_on_empty_witness :
    Activities.logTaskUpdated "t1" "u1"
        (some [("title", { old := .v .null, new := .v (.str "x") })]) [] =
      [{ taskId := some "t1", userId := "u1", action := .UPDATED,
         changes := some [("title", { old := .v .null, new := .v (.str "x") })] }] :=
  (logTaskUpdated_noop_on_empty "t1" "u1" []).2.2
    [("title", { old := .v .null, new := .v (.str "x") })]
    (by simp)

/-- Claim C8: activity records whose subject-task reference is null are
returned in full, with the `[Deleted Task]` placeholder title and a null
task id; in particular, after a task row is deleted (FK `ON DELETE SET
NULL`), every prior activity of that task is still produced by the query
with its id, actor, action and timestamp preserved. -/
theorem activity_survives_deletion :
    (∀ (db : Activities.ActivityDb) (a : Activities.DbActivity),
        a ∈ db.activities → a.taskId = none →
        Activities.transformToResponseDto (Activities.joinTask db a) ∈
            Activities.queryActivities db ∧
          (Activities.transformToResponseDto (Activities.joinTask db a)).taskTitle =
              "[Deleted Task]" ∧
          (Activities.transformToResponseDto (Activities.joinTask db a)).taskId = none ∧
          (Activities.transformToResponseDto (Activities.joinTask db a)).id = a.id ∧
          (Activities.transformToResponseDto (Activities.joinTask db a)).userId = a.userId ∧
          (Activities.transformToResponseDto (Activities.joinTask db a)).action = a.action ∧
          (Activities.transformToResponseDto (Activities.joinTask db a)).createdAt = a.createdAt) ∧
    (∀ (db : Activities.ActivityDb) (a : Activities.DbActivity) (tid : String),
        a ∈ db.activities → a.taskId = some tid →
        ∃ r ∈ Activities.queryActivities (Activities.deleteTaskRow db tid),
          r.id = a.id ∧ r.userId = a.userId ∧ r.userName = a.userName ∧
          r.action = a.action ∧ r.createdAt = a.createdAt ∧
          r.changes = a.changes ∧
          r.taskTitle = "[Deleted Task]" ∧ r.taskId = none) := by
  constructor
  · intro db a ha hnone
    refine ⟨List.mem_map_of_mem _ ha, ?_⟩
    simp [Activities.transformToResponseDto, Activities.joinTask, hnone]
  · intro db a tid ha htid
    have hmem : ({ a with taskId := none } : Activities.DbActivity) ∈
        (Activities.deleteTaskRow db tid).activities := by
      show _ ∈ db.activities.map _
      exact List.mem_map.mpr ⟨a, ha, by simp [htid]⟩
    refine ⟨Activities.transformToResponseDto
      (Activities.joinTask (Activities.deleteTaskRow db tid) { a with taskId := none }),
      List.mem_map_of_mem _ hmem, ?_⟩
    simp [Activities.transformToResponseDto, Activities.joinTask]

/-- Witness for C8: one activity of one task, before and after deleting
the task. -/
theorem activity_survives_deletion_witness :
    ∃ r ∈ Activities.queryActivities
        (Activities.deleteTaskRow
          ⟨[⟨"t1", "My Task"⟩],
           [⟨"a1", some "t1", "u1", "Alice", .CREATED, none, 5⟩]⟩ "t1"),
      r.id = "a1" ∧ r.userId = "u1" ∧ r.userName = "Alice" ∧
      r.action = .CREATED ∧ r.createdAt = 5 ∧ r.changes = none ∧
      r.taskTitle = "[Deleted Task]" ∧ r.taskId = none :=
  activity_survives_deletion.2
    ⟨[⟨"t1", "My Task"⟩], [⟨"a1", some "t1", "u1", "Alice", .CREATED, none, 5⟩]⟩
    ⟨"a1", some "t1", "u1", "Alice", .CREATED, none, 5⟩ "t1"
    (by simp) rfl

/-- Each exposed `ActivitiesService` operation only appends rows (or
leaves the table untouched). -/
theorem applyOp_extends (op : Activities.ActOp) (log : Activities.ActivityLog) :
    ∃ r, Activities.applyOp op log = log ++ r := by
  cases op with
  | createActivityOp dto => exact ⟨_, rfl⟩
  | logTaskCreatedOp taskId userId => exact ⟨_, rfl⟩
  | logTaskUpdatedOp taskId userId changes =>
    cases changes with
    | none => exact ⟨[], (List.append_nil log).symm⟩
    | some c =>
      cases c with
      | nil => exact ⟨[], (List.append_nil log).symm⟩
      | cons x xs => exact ⟨_, rfl⟩
  | logTaskDeletedOp taskId userId => exact ⟨_, rfl⟩
  | findAllOp filter => exact ⟨[], (List.append_nil log).symm⟩
  | findByTaskIdOp taskId filter => exact ⟨[], (List.append_nil log).symm⟩
  | findByUserIdOp userId filter => exact ⟨[], (List.append_nil log).symm⟩

/-- Claim C9: the activity store is append-only: under every sequence of
exposed `ActivitiesService` operations, the prior rows persist unchanged
as a prefix and only new rows are added — no exposed operation updates or
deletes an existing ActivityRecord. -/
theorem activities_append_only (ops : List Activities.ActOp)
    (log : Activities.ActivityLog) :
    ∃ newRows, Activities.applyOps ops log = log ++ newRows := by
  induction ops generalizing log with
  | nil => exact ⟨[], (List.append_nil log).symm⟩
  | cons op ops ih =>
    obtain ⟨r, hr⟩ := applyOp_extends op log
    obtain ⟨t, ht⟩ := ih (Activities.applyOp op log)
    refine ⟨r ++ t, ?_⟩
    show Activities.applyOps ops (Activities.applyOp op log) = _
    rw [ht, hr, List.append_assoc]

/-- Claim C10: in `TasksService.update`, a tracked scalar field
explicitly set to `null` in the DTO is merged with `??` and falls back to
the existing value, so the change detector reports no entry for it; only
`assigneeId`, merged with an explicit `!== undefined` check, records such
a clear as `{old, new: null}`. -/
theorem update_explicit_null_not_logged (d : DateLib)
    (dto : Tasks.UpdateTaskDto) (existingTask : ActivityTracker.TaskObj) :
    (∀ f ∈ (["title", "description", "status", "priority", "dueDate"] : List String),
      Tasks.dtoScalarField dto f = .null →
      ActivityTracker.getField existingTask f ≠ .null →
      ActivityTracker.jsGet
        (ActivityTracker.detectTaskChanges d existingTask
          (Tasks.newTaskForComparison dto existingTask)) f = none) ∧
    (∀ s : String, dto.assigneeId = .null →
      existingTask.assigneeId = .str s →
      ActivityTracker.jsGet
        (ActivityTracker.detectTaskChanges d existingTask
          (Tasks.newTaskForComparison dto existingTask)) "assigneeId" =
        some { old := .v (ActivityTracker.normalizeValue d (.str s)),
               new := .v .null }) := by
  constructor
  · intro f hf hnull _hex
    fin_cases hf <;>
      [rw [jsGet_detect_tracked d _ _ "title" (by decide)];
       rw [jsGet_detect_tracked d _ _ "description" (by decide)];
       rw [jsGet_detect_tracked d _ _ "status" (by decide)];
       rw [jsGet_detect_tracked d _ _ "priority" (by decide)];
       rw [jsGet_detect_tracked d _ _ "dueDate" (by decide)]] <;>
      simp [Tasks.dtoScalarField] at hnull <;>
      simp [ActivityTracker.getField, Tasks.newTaskForComparison,
        Tasks.nullishCoalesce, hnull, hasFieldChanged_self]
  · intro s hnull hex
    rw [jsGet_detect_tracked d _ _ "assigneeId" (by decide)]
    have hassign : ActivityTracker.getField
        (Tasks.newTaskForComparison dto existingTask) "assigneeId" = .null := by
      simp [ActivityTracker.getField, Tasks.newTaskForComparison, hnull]
    have hold : ActivityTracker.getField existingTask "assigneeId" = .str s := by
      simp [ActivityTracker.getField, hex]
    rw [hassign, hold]
    have hch : ActivityTracker.hasFieldChanged d (.str s) .null = true := by
      simp only [ActivityTracker.hasFieldChanged, ActivityTracker.normalizeValue]
      by_cases hiso : d.isISODate s <;> simp [hiso]
    rw [hch, if_pos rfl]
    rfl

/-- Witness for C10: a DTO nulling `title` while the task has a title
produces no `title` entry. -/
theorem update_explicit_null_not_logged_witness :
    ActivityTracker.jsGet
        (ActivityTracker.detectTaskChanges ⟨fun _ => false, fun _ => 0⟩
          { title := .str "Old", description := .null, status := .null,
            priority := .null, dueDate := .null, assigneeId := .null,
            tags := none }
          (Tasks.newTaskForComparison
            { title := .null, description := .undefined, status := .undefined,
              priority := .undefined, dueDate := .undefined, assigneeId := .undefined,
              tagIds := none }
            { title := .str "Old", description := .null, status := .null,
              priority := .null, dueDate := .null, assigneeId := .null,
              tags := none })) "title" = none :=
  (update_explicit_null_not_logged ⟨fun _ => false, fun _ => 0⟩
      { title := .null, description := .undefined, status := .undefined,
        priority := .undefined, dueDate := .undefined, assigneeId := .undefined,
        tagIds := none }
      { title := .str "Old", description := .null, status := .null,
        priority := .null, dueDate := .null, assigneeId := .null,
        tags := none }).1 "title" (by decide) rfl (by decide)
